import Mathlib

/-!
# chromex: launcher shim around a browser-automation toolkit

Shallow embedding of `chromex.go` (`DefaultTimeout`, `Options`, `DefaultFlags`,
`RunChrome`).  Go slices are modelled over an explicit heap of backing arrays, the
calls into the toolkit are recorded in an event trace, and `defer` is an explicit
last-in-first-out stack that is run after the return operands have been evaluated, or
when a panic unwinds the call.  The allocator calls the option functions it is handed,
so a nil option makes it panic before anything is acquired.
-/

namespace chromex

/-! ## Values -/

/-- A `time.Duration`: a signed count of nanoseconds. -/
abbrev Duration := Int

/-- The constant `time.Second`, in nanoseconds. -/
def Second : Duration := 1000000000

/-- Source lines 11-14: `DefaultTimeout time.Duration = 60 * time.Second`. -/
def DefaultTimeout : Duration := 60 * Second

/-- The `interface{}` argument of `chromedp.Flag`, for the two dynamic types the
source uses. -/
inductive FlagValue where
  | bool (b : Bool)
  | str (s : String)
  deriving DecidableEq, Repr

/-- Values of type `chromedp.ExecAllocatorOption`, a function type, named by the
toolkit expression that builds them.  `Nil` is the zero value of the function type
(what `make` fills a new array with); `Custom` stands for any other option function a
caller may hold that returns when it is applied, `CustomPanics` for one that panics
when it is applied. -/
inductive ExecAllocatorOption where
  | Nil
  | NoFirstRun
  | NoDefaultBrowserCheck
  | NoSandbox
  | Flag (name : String) (value : FlagValue)
  | ExecPath (path : String)
  | Custom (id : Nat)
  | CustomPanics (id : Nat)
  deriving DecidableEq, Repr

/-- Whether calling the option function on an allocator returns: calling the nil
function panics, and so does a caller's function that panics. -/
def ExecAllocatorOption.applies : ExecAllocatorOption → Bool
  | ExecAllocatorOption.Nil => false
  | ExecAllocatorOption.CustomPanics _ => false
  | _ => true

/-! ## Slices over a heap of backing arrays -/

/-- The heap: backing arrays of option values, addressed by position. -/
abbrev Heap := List (List ExecAllocatorOption)

/-- A slice header: backing array (none for the nil slice), offset of element 0 in
it, length and capacity. -/
structure Slice where
  ptr : Option Nat
  off : Nat
  len : Nat
  cap : Nat
  deriving DecidableEq, Repr

/-- The nil slice. -/
def Slice.nil : Slice := ⟨none, 0, 0, 0⟩

/-- The elements `s[0], ..., s[len(s)-1]` as stored in heap `h`. -/
def Slice.elems (s : Slice) (h : Heap) : List ExecAllocatorOption :=
  match s.ptr with
  | none => []
  | some a => ((h.getD a []).drop s.off).take s.len

/-- The runtime invariant of a slice header with respect to a heap: the nil slice
has length and capacity 0; any other slice points at an allocated array and its
capacity window lies inside it. -/
def Slice.WF (s : Slice) (h : Heap) : Prop :=
  match s.ptr with
  | none => s.len = 0 ∧ s.cap = 0
  | some a => a < h.length ∧ s.len ≤ s.cap ∧ s.off + s.cap ≤ (h.getD a []).length

instance Slice.decidableWF (s : Slice) (h : Heap) : Decidable (s.WF h) := by
  unfold Slice.WF
  cases s.ptr <;> exact inferInstance

/-- Allocation of a fresh backing array: it is placed after every existing one. -/
def Heap.alloc (h : Heap) (cells : List ExecAllocatorOption) : Nat × Heap :=
  (h.length, h ++ [cells])

/-- A composite literal `[]T{v0, ..., vk}`: a fresh array holding exactly the listed
values, and a slice over all of it. -/
def sliceLit (vals : List ExecAllocatorOption) (h : Heap) : Slice × Heap :=
  let (a, h1) := h.alloc vals
  (⟨some a, 0, vals.length, vals.length⟩, h1)

/-- The built-in `make([]T, n)`: a fresh array of `n` zero values. -/
def make (n : Nat) (h : Heap) : Slice × Heap :=
  let (a, h1) := h.alloc (List.replicate n ExecAllocatorOption.Nil)
  (⟨some a, 0, n, n⟩, h1)

/-- The assignment `s[i] = v`; `none` is the run-time panic for an index out of
range. -/
def Slice.store (s : Slice) (i : Nat) (v : ExecAllocatorOption) (h : Heap) : Option Heap :=
  if i < s.len then
    match s.ptr with
    | none => none
    | some a => some (h.set a ((h.getD a []).set (s.off + i) v))
  else none

/-- The slice expression `s[lo:]`; `none` is the run-time panic for bounds out of
range. -/
def Slice.drop (s : Slice) (lo : Nat) : Option Slice :=
  if lo ≤ s.len then some ⟨s.ptr, s.off + lo, s.len - lo, s.cap - lo⟩ else none

/-- Writes `vals` into consecutive cells of an array, starting at cell `i`. -/
def writeAt : List ExecAllocatorOption → Nat → List ExecAllocatorOption → List ExecAllocatorOption
  | cells, _, [] => cells
  | cells, i, v :: vs => writeAt (cells.set i v) (i + 1) vs

/-- The built-in `copy(dst, src)`: the first `min(len(dst), len(src))` elements of
`src`, read before anything is written, are stored into `dst`; the count is
returned. -/
def copy (dst src : Slice) (h : Heap) : Nat × Heap :=
  let n := min dst.len src.len
  let vals := (src.elems h).take n
  match dst.ptr with
  | none => (n, h)
  | some a => (n, h.set a (writeAt (h.getD a []) dst.off vals))

/-! ## Contexts, the toolkit calls and their trace -/

/-- A `context.Context`, named by the chain of calls that derived it. -/
inductive Context where
  | Background
  | ExecAllocator (parent : Context) (opts : List ExecAllocatorOption)
  | Session (parent : Context)
  | Deadline (parent : Context) (timeout : Duration)
  deriving DecidableEq, Repr

/-- What one call of the launcher does to the outside, in order: a context was
acquired; the acquisition of a context was attempted and panicked; the extractor was
invoked with a context; a context was released. -/
inductive Event where
  | acquire (ctx : Context)
  | fail (ctx : Context)
  | invoke (ctx : Context)
  | release (ctx : Context)
  deriving DecidableEq, Repr

/-- A `context.CancelFunc`: releases the context it was returned with. -/
structure CancelFunc where
  target : Context
  deriving DecidableEq, Repr

/-- The value an option function panics with when it is called: the run-time error of
calling a nil function, or whatever a caller's panicking function raises. -/
def ExecAllocatorOption.panicValue : ExecAllocatorOption → String
  | ExecAllocatorOption.Nil => "runtime error: invalid memory address or nil pointer dereference"
  | _ => "panic raised by the option function"

/-- The panic value of the first option in the list that does not return. -/
def panicReason (opts : List ExecAllocatorOption) : String :=
  match opts.find? (fun o => !o.applies) with
  | some o => o.panicValue
  | none => ""

/-- The call `chromedp.NewExecAllocator(parent, opts...)`: the allocator calls every
option it is handed on itself, in order, and then returns a context and its cancel
function, no error.  `Except.error` is the panic of an option that does not return (a
nil option): nothing is returned to the caller. -/
def NewExecAllocator (parent : Context) (opts : List ExecAllocatorOption)
    (tr : List Event) : Except String (Context × CancelFunc) × List Event :=
  let c := Context.ExecAllocator parent opts
  if opts.all ExecAllocatorOption.applies then
    (Except.ok (c, ⟨c⟩), tr ++ [Event.acquire c])
  else
    (Except.error (panicReason opts), tr ++ [Event.fail c])

/-- The call `chromedp.NewContext(parent)`: a context and its cancel function, no
error. -/
def NewContext (parent : Context) (tr : List Event) : (Context × CancelFunc) × List Event :=
  let c := Context.Session parent
  ((c, ⟨c⟩), tr ++ [Event.acquire c])

/-- The call `context.WithTimeout(parent, timeout)`: a context and its cancel
function, no error. -/
def WithTimeout (parent : Context) (timeout : Duration) (tr : List Event) :
    (Context × CancelFunc) × List Event :=
  let c := Context.Deadline parent timeout
  ((c, ⟨c⟩), tr ++ [Event.acquire c])

/-- Calling a cancel function. -/
def CancelFunc.call (f : CancelFunc) (tr : List Event) : List Event :=
  tr ++ [Event.release f.target]

/-- Runs a stack of deferred calls, most recently deferred first. -/
def runDefers : List CancelFunc → List Event → List Event
  | [], tr => tr
  | f :: fs, tr => runDefers fs (f.call tr)

/-! ## The package -/

/-- A Go `error` value; the nil error is `none` of `Option GoError`. -/
abbrev GoError := String

/-- How a call ends: it returns a pair (value, error), or it panics. -/
inductive Outcome (T : Type) where
  | ret (value : T) (err : Option GoError)
  | panic (reason : String)
  deriving DecidableEq, Repr

/-- Source line 18: `type Extractor[T any] func(ctx context.Context) (T, error)`. -/
abbrev Extractor (T : Type) := Context → Outcome T

/-- Calling the extractor with a context. -/
def Extractor.call {T : Type} (extractor : Extractor T) (ctx : Context) (tr : List Event) :
    Outcome T × List Event :=
  (extractor ctx, tr ++ [Event.invoke ctx])

/-- Source lines 21-28: `type Options struct`. -/
structure Options where
  Path : String := ""
  Timeout : Duration := 0
  Flags : Slice := Slice.nil
  deriving DecidableEq, Repr

/-- The code points Go's `unicode.IsSpace` accepts. -/
def isSpace (c : Char) : Bool :=
  c.val = 0x09 || c.val = 0x0A || c.val = 0x0B || c.val = 0x0C || c.val = 0x0D ||
  c.val = 0x20 || c.val = 0x85 || c.val = 0xA0 || c.val = 0x1680 ||
  (0x2000 ≤ c.val && c.val ≤ 0x200A) || c.val = 0x2028 || c.val = 0x2029 ||
  c.val = 0x202F || c.val = 0x205F || c.val = 0x3000

/-- Modelled from the spec: `stringsx.IsNotBlank` is a function of the imported
toolkit package, absent from this repository; a path is blank when it is empty or
holds white space only, and non-blank otherwise. -/
def IsNotBlank (s : String) : Bool :=
  s.data.any (fun c => !isSpace c)

/-- The values listed in the composite literal of `DefaultFlags`, source lines
35-42. -/
def defaultFlagValues : List ExecAllocatorOption :=
  [ ExecAllocatorOption.NoFirstRun,
    ExecAllocatorOption.NoDefaultBrowserCheck,
    ExecAllocatorOption.NoSandbox,
    ExecAllocatorOption.Flag "incognito" (FlagValue.bool true),
    ExecAllocatorOption.Flag "disable-blink-features" (FlagValue.str "AutomationControlled") ]

/-- Source lines 32-44: `func DefaultFlags() []chromedp.ExecAllocatorOption`. -/
def DefaultFlags (h : Heap) : Slice × Heap :=
  sliceLit defaultFlagValues h

/-- Source lines 56-58 of `RunChrome`: `if len(config.Flags) == 0 { config.Flags =
DefaultFlags() }`, on the callee's own copy of `config`. -/
def defaultedConfig (config : Options) (h : Heap) : Options × Heap :=
  if config.Flags.len == 0 then
    let (s, h1) := DefaultFlags h
    ({ config with Flags := s }, h1)
  else (config, h)

/-- Source lines 61-67 of `RunChrome`: `flags := config.Flags`, and under
`stringsx.IsNotBlank(config.Path)` the new slice with the path option first.
`none` is a run-time panic. -/
def pathFlags (config : Options) (h : Heap) : Option (Slice × Heap) :=
  let flags := config.Flags
  if IsNotBlank config.Path then
    let (newFlags, h1) := make (flags.len + 1) h
    match newFlags.store 0 (ExecAllocatorOption.ExecPath config.Path) h1 with
    | none => none
    | some h2 =>
      match newFlags.drop 1 with
      | none => none
      | some dst =>
        let (_, h3) := copy dst flags h2
        some (newFlags, h3)
  else some (flags, h)

/-- Source lines 78-81 of `RunChrome`: `timeout := config.Timeout; if timeout == 0
{ timeout = DefaultTimeout }`. -/
def effectiveTimeout (config : Options) : Duration :=
  let timeout := config.Timeout
  if timeout == 0 then DefaultTimeout else timeout

/-- What a call of `RunChrome` leaves behind: how it ended, the heap, and the trace
of its calls to the outside. -/
structure Run (T : Type) where
  outcome : Outcome T
  heap : Heap
  trace : List Event

/-- Source lines 54-87: `func RunChrome[T any](config Options, extractor
Extractor[T]) (T, error)`. -/
def RunChrome {T : Type} (config : Options) (extractor : Extractor T) (h : Heap) : Run T :=
  let (config, h1) := defaultedConfig config h
  match pathFlags config h1 with
  | none => ⟨Outcome.panic "runtime error: index out of range", h1, []⟩
  | some (flags, h2) =>
    let tr : List Event := []
    let defers : List CancelFunc := []
    match NewExecAllocator Context.Background (flags.elems h2) tr with
    | (Except.error reason, tr) =>
      let tr := runDefers defers tr
      ⟨Outcome.panic reason, h2, tr⟩
    | (Except.ok (allocCtx, cancelAlloc), tr) =>
      let defers := cancelAlloc :: defers
      let ((ctx, cancelCtx), tr) := NewContext allocCtx tr
      let defers := cancelCtx :: defers
      let timeout := effectiveTimeout config
      let ((ctx, cancelTimeout), tr) := WithTimeout ctx timeout tr
      let defers := cancelTimeout :: defers
      let (result, tr) := extractor.call ctx tr
      let tr := runDefers defers tr
      ⟨result, h2, tr⟩

/-! ## Observations on a trace -/

/-- The option lists the allocator was handed, one per call of the allocator,
whether the call returned or panicked. -/
def allocatorArgs : List Event → List (List ExecAllocatorOption)
  | [] => []
  | Event.acquire (Context.ExecAllocator _ opts) :: tr => opts :: allocatorArgs tr
  | Event.fail (Context.ExecAllocator _ opts) :: tr => opts :: allocatorArgs tr
  | _ :: tr => allocatorArgs tr

/-- The durations the deadline wrapper was handed, one per deadline acquisition. -/
def deadlineArgs : List Event → List Duration
  | [] => []
  | Event.acquire (Context.Deadline _ d) :: tr => d :: deadlineArgs tr
  | _ :: tr => deadlineArgs tr

/-- The contexts the extractor was invoked with, one per invocation. -/
def invocations : List Event → List Context
  | [] => []
  | Event.invoke c :: tr => c :: invocations tr
  | _ :: tr => invocations tr

/-- The contexts acquired, in order of acquisition. -/
def acquisitions : List Event → List Context
  | [] => []
  | Event.acquire c :: tr => c :: acquisitions tr
  | _ :: tr => acquisitions tr

/-- The contexts whose acquisition was attempted and panicked. -/
def failures : List Event → List Context
  | [] => []
  | Event.fail c :: tr => c :: failures tr
  | _ :: tr => failures tr

/-- The contexts released, in order of release. -/
def releases : List Event → List Context
  | [] => []
  | Event.release c :: tr => c :: releases tr
  | _ :: tr => releases tr

/-! ## Concrete inputs -/

/-- An extractor that ignores its context and returns `(7, nil)`. -/
def extractSeven : Extractor Nat := fun _ => Outcome.ret 7 none

/-- An extractor that returns the non-zero value 5 together with an error. -/
def extractFiveFailing : Extractor Nat := fun _ => Outcome.ret 5 (some "navigation failed")

/-- A caller heap with one array of three options. -/
def callerHeap : Heap :=
  [[ExecAllocatorOption.Custom 1, ExecAllocatorOption.Custom 2, ExecAllocatorOption.Custom 3]]

/-- The caller's flags: the last two elements of the array in `callerHeap`. -/
def callerFlags : Slice := ⟨some 0, 1, 2, 2⟩

/-- Options with a path override, a timeout of 5ns and the caller's two flags. -/
def pathOptions : Options := { Path := "/usr/bin/chrome", Timeout := 5, Flags := callerFlags }

/-- Options with a blank path and the caller's two flags. -/
def blankPathOptions : Options := { Path := "  ", Timeout := 0, Flags := callerFlags }

/-- Options whose timeout is negative. -/
def expiredOptions : Options := { Timeout := -1 }

/-- A caller heap with one array that holds a single nil option. -/
def nilHeap : Heap := [[ExecAllocatorOption.Nil]]

/-- Options whose flags are the one-element slice over the array in `nilHeap`: the Go
value `Options{Flags: []chromedp.ExecAllocatorOption{nil}}`. -/
def nilOptions : Options := { Flags := ⟨some 0, 0, 1, 1⟩ }

/-! ## Slices and the heap -/

theorem getD_snoc {α : Type} (h : List α) (x d : α) : (h ++ [x]).getD h.length d = x := by
  simp [List.getD]

theorem set_snoc {α : Type} (h : List α) (x y : α) : (h ++ [x]).set h.length y = h ++ [y] := by
  induction h with
  | nil => rfl
  | cons a t ih => simp [List.set, ih]

theorem getD_append_lt {α : Type} (h ext : List α) (a : Nat) (d : α) (ha : a < h.length) :
    (h ++ ext).getD a d = h.getD a d := by
  simp [List.getD, List.getElem?_append_left ha]

/-- A well-formed slice has the same elements in every extension of the heap. -/
theorem Slice.elems_append (s : Slice) (h ext : Heap) (hwf : s.WF h) :
    s.elems (h ++ ext) = s.elems h := by
  unfold Slice.elems
  unfold Slice.WF at hwf
  cases hp : s.ptr with
  | none => rfl
  | some a =>
    rw [hp] at hwf
    simp only []
    rw [getD_append_lt h ext a [] hwf.1]

/-- A well-formed slice has as many elements as its length field says. -/
theorem Slice.length_elems (s : Slice) (h : Heap) (hwf : s.WF h) :
    (s.elems h).length = s.len := by
  unfold Slice.elems
  unfold Slice.WF at hwf
  cases hp : s.ptr with
  | none => rw [hp] at hwf; simp [hwf.1]
  | some a =>
    rw [hp] at hwf
    simp only [List.length_take, List.length_drop]
    omega

/-- A slice over the whole of the newest array holds that array's cells. -/
theorem Slice.elems_fresh (h : Heap) (cells : List ExecAllocatorOption) (n : Nat)
    (hn : cells.length = n) :
    (⟨some h.length, 0, n, n⟩ : Slice).elems (h ++ [cells]) = cells := by
  subst hn
  simp [Slice.elems, getD_snoc]

theorem writeAt_append (vals pre junk : List ExecAllocatorOption)
    (hlen : vals.length = junk.length) :
    writeAt (pre ++ junk) pre.length vals = pre ++ vals := by
  induction vals generalizing pre junk with
  | nil =>
    cases junk with
    | nil => simp [writeAt]
    | cons _ _ => simp at hlen
  | cons v vs ih =>
    cases junk with
    | nil => simp at hlen
    | cons j js =>
      have hset : (pre ++ j :: js).set pre.length v = (pre ++ [v]) ++ js := by
        simp [List.set_append_right]
      have := ih (pre ++ [v]) js (by simpa using hlen)
      simp only [writeAt, hset]
      simpa using this

/-! ## The steps of `RunChrome` -/

theorem defaultedConfig_empty (config : Options) (h : Heap) (hlen : config.Flags.len = 0) :
    defaultedConfig config h =
      ({ config with Flags := ⟨some h.length, 0, 5, 5⟩ }, h ++ [defaultFlagValues]) := by
  simp [defaultedConfig, hlen, DefaultFlags, sliceLit, Heap.alloc, defaultFlagValues]

theorem defaultedConfig_nonempty (config : Options) (h : Heap) (hlen : config.Flags.len ≠ 0) :
    defaultedConfig config h = (config, h) := by
  simp [defaultedConfig, hlen]

/-- Defaulting touches neither the path nor the timeout. -/
theorem defaultedConfig_fields (config : Options) (h : Heap) :
    (defaultedConfig config h).1.Path = config.Path ∧
    (defaultedConfig config h).1.Timeout = config.Timeout := by
  by_cases hlen : config.Flags.len = 0
  · rw [defaultedConfig_empty config h hlen]; exact ⟨rfl, rfl⟩
  · rw [defaultedConfig_nonempty config h hlen]; exact ⟨rfl, rfl⟩

/-- Defaulting only ever adds a fresh array to the heap. -/
theorem defaultedConfig_heap (config : Options) (h : Heap) :
    ∃ fresh, (defaultedConfig config h).2 = h ++ fresh := by
  by_cases hlen : config.Flags.len = 0
  · rw [defaultedConfig_empty config h hlen]; exact ⟨_, rfl⟩
  · rw [defaultedConfig_nonempty config h hlen]; exact ⟨[], by simp⟩

/-- The base flags are a well-formed slice of the heap they live in. -/
theorem defaultedConfig_WF (config : Options) (h : Heap) (hwf : config.Flags.WF h) :
    (defaultedConfig config h).1.Flags.WF (defaultedConfig config h).2 := by
  by_cases hlen : config.Flags.len = 0
  · rw [defaultedConfig_empty config h hlen]
    simp [Slice.WF, getD_snoc, defaultFlagValues]
  · rw [defaultedConfig_nonempty config h hlen]; exact hwf

theorem pathFlags_blank (config : Options) (h : Heap) (hb : IsNotBlank config.Path = false) :
    pathFlags config h = some (config.Flags, h) := by
  simp [pathFlags, hb]

/-- With a non-blank path the new slice is the whole of one fresh array. -/
theorem pathFlags_nonblank (config : Options) (h : Heap) (hb : IsNotBlank config.Path = true) :
    pathFlags config h =
      some (⟨some h.length, 0, config.Flags.len + 1, config.Flags.len + 1⟩,
        h ++ [writeAt
          (ExecAllocatorOption.ExecPath config.Path ::
            List.replicate config.Flags.len ExecAllocatorOption.Nil) 1
          ((config.Flags.elems
            (h ++ [ExecAllocatorOption.ExecPath config.Path ::
              List.replicate config.Flags.len ExecAllocatorOption.Nil])).take
            config.Flags.len)]) := by
  simp [pathFlags, hb, make, Heap.alloc, Slice.store, Slice.drop, copy, getD_snoc, set_snoc,
    List.replicate_succ]

/-- With a non-blank path and well-formed base flags, the fresh array holds the path
option followed by the base flags. -/
theorem pathFlags_nonblank_WF (config : Options) (h : Heap)
    (hb : IsNotBlank config.Path = true) (hwf : config.Flags.WF h) :
    pathFlags config h =
      some (⟨some h.length, 0, config.Flags.len + 1, config.Flags.len + 1⟩,
        h ++ [ExecAllocatorOption.ExecPath config.Path :: config.Flags.elems h]) := by
  rw [pathFlags_nonblank config h hb, Slice.elems_append _ _ _ hwf]
  have hl := Slice.length_elems _ _ hwf
  have hw := writeAt_append (config.Flags.elems h) [ExecAllocatorOption.ExecPath config.Path]
    (List.replicate config.Flags.len ExecAllocatorOption.Nil) (by simp [hl])
  have ht : (config.Flags.elems h).take config.Flags.len = config.Flags.elems h := by
    rw [← hl]; exact List.take_length _
  rw [ht]
  simp only [List.singleton_append, List.length_singleton] at hw
  rw [hw]

/-- The path step never panics and only ever adds a fresh array to the heap. -/
theorem pathFlags_total (config : Options) (h : Heap) :
    ∃ flags fresh, pathFlags config h = some (flags, h ++ fresh) := by
  cases hb : IsNotBlank config.Path with
  | false => exact ⟨config.Flags, [], by rw [pathFlags_blank config h hb]; simp⟩
  | true => exact ⟨_, _, pathFlags_nonblank config h hb⟩

/-- The whole of `RunChrome` when the allocator can apply every final flag. -/
theorem RunChrome_ok {T : Type} (config : Options) (extractor : Extractor T) (h : Heap)
    (flags : Slice) (h2 : Heap)
    (hp : pathFlags (defaultedConfig config h).1 (defaultedConfig config h).2 = some (flags, h2))
    (hall : (flags.elems h2).all ExecAllocatorOption.applies = true) :
    RunChrome config extractor h =
      ⟨extractor (Context.Deadline (Context.Session
          (Context.ExecAllocator Context.Background (flags.elems h2)))
          (effectiveTimeout config)),
        h2,
        [ Event.acquire (Context.ExecAllocator Context.Background (flags.elems h2)),
          Event.acquire (Context.Session
            (Context.ExecAllocator Context.Background (flags.elems h2))),
          Event.acquire (Context.Deadline (Context.Session
            (Context.ExecAllocator Context.Background (flags.elems h2)))
            (effectiveTimeout config)),
          Event.invoke (Context.Deadline (Context.Session
            (Context.ExecAllocator Context.Background (flags.elems h2)))
            (effectiveTimeout config)),
          Event.release (Context.Deadline (Context.Session
            (Context.ExecAllocator Context.Background (flags.elems h2)))
            (effectiveTimeout config)),
          Event.release (Context.Session
            (Context.ExecAllocator Context.Background (flags.elems h2))),
          Event.release (Context.ExecAllocator Context.Background (flags.elems h2)) ]⟩ := by
  have ht : effectiveTimeout (defaultedConfig config h).1 = effectiveTimeout config := by
    simp [effectiveTimeout, (defaultedConfig_fields config h).2]
  unfold RunChrome
  simp only [hp, ht, hall, NewExecAllocator, NewContext, WithTimeout, Extractor.call,
    runDefers, CancelFunc.call, List.nil_append, List.cons_append, List.append_assoc,
    if_true]

/-- The whole of `RunChrome` when the allocator panics on one of the final flags. -/
theorem RunChrome_panic {T : Type} (config : Options) (extractor : Extractor T) (h : Heap)
    (flags : Slice) (h2 : Heap)
    (hp : pathFlags (defaultedConfig config h).1 (defaultedConfig config h).2 = some (flags, h2))
    (hall : (flags.elems h2).all ExecAllocatorOption.applies = false) :
    RunChrome config extractor h =
      ⟨Outcome.panic (panicReason (flags.elems h2)),
        h2,
        [Event.fail (Context.ExecAllocator Context.Background (flags.elems h2))]⟩ := by
  unfold RunChrome
  simp only [hp, hall, NewExecAllocator, runDefers, List.nil_append]
  simp

/-- What the allocator is handed is the final flag sequence, panic or not. -/
theorem RunChrome_allocatorArgs {T : Type} (config : Options) (extractor : Extractor T)
    (h : Heap) (flags : Slice) (h2 : Heap)
    (hp : pathFlags (defaultedConfig config h).1 (defaultedConfig config h).2 = some (flags, h2)) :
    allocatorArgs (RunChrome config extractor h).trace = [flags.elems h2] := by
  cases hall : (flags.elems h2).all ExecAllocatorOption.applies with
  | true => rw [RunChrome_ok config extractor h flags h2 hp hall]; simp [allocatorArgs]
  | false => rw [RunChrome_panic config extractor h flags h2 hp hall]; simp [allocatorArgs]

/-- The heap a call leaves is the heap the path step produced, panic or not. -/
theorem RunChrome_heap {T : Type} (config : Options) (extractor : Extractor T)
    (h : Heap) (flags : Slice) (h2 : Heap)
    (hp : pathFlags (defaultedConfig config h).1 (defaultedConfig config h).2 = some (flags, h2)) :
    (RunChrome config extractor h).heap = h2 := by
  cases hall : (flags.elems h2).all ExecAllocatorOption.applies with
  | true => rw [RunChrome_ok config extractor h flags h2 hp hall]
  | false => rw [RunChrome_panic config extractor h flags h2 hp hall]

/-- The base flags hold the default values or the caller's elements. -/
theorem base_elems (config : Options) (h : Heap) :
    (defaultedConfig config h).1.Flags.elems (defaultedConfig config h).2 =
      if config.Flags.len = 0 then defaultFlagValues else config.Flags.elems h := by
  by_cases hlen : config.Flags.len = 0
  · rw [defaultedConfig_empty config h hlen, if_pos hlen]
    exact Slice.elems_fresh h defaultFlagValues 5 rfl
  · rw [defaultedConfig_nonempty config h hlen, if_neg hlen]

/-- The allocator can apply the base flags exactly when it can apply the caller's. -/
theorem base_applies (config : Options) (h : Heap) (hwf : config.Flags.WF h) :
    ((defaultedConfig config h).1.Flags.elems (defaultedConfig config h).2).all
        ExecAllocatorOption.applies =
      (config.Flags.elems h).all ExecAllocatorOption.applies := by
  rw [base_elems config h]
  by_cases hlen : config.Flags.len = 0
  · rw [if_pos hlen]
    have hl := Slice.length_elems _ _ hwf
    rw [hlen] at hl
    rw [List.length_eq_zero.mp hl]
    rfl
  · rw [if_neg hlen]

/-- The path step on well-formed flags: the final flag sequence is the base flags,
with the path option in front when the path is not blank, and the allocator can apply
it exactly when it can apply the caller's flags. -/
theorem final_flags (config : Options) (h : Heap) (hwf : config.Flags.WF h) :
    ∃ flags h2,
      pathFlags (defaultedConfig config h).1 (defaultedConfig config h).2 = some (flags, h2) ∧
      flags.elems h2 =
        (if IsNotBlank config.Path = true then
          ExecAllocatorOption.ExecPath config.Path ::
            (defaultedConfig config h).1.Flags.elems (defaultedConfig config h).2
        else (defaultedConfig config h).1.Flags.elems (defaultedConfig config h).2) ∧
      (flags.elems h2).all ExecAllocatorOption.applies =
        (config.Flags.elems h).all ExecAllocatorOption.applies := by
  have hwf1 := defaultedConfig_WF config h hwf
  have hba := base_applies config h hwf
  cases hb : IsNotBlank config.Path with
  | false =>
    have hb2 : IsNotBlank (defaultedConfig config h).1.Path = false := by
      rw [(defaultedConfig_fields config h).1]; exact hb
    refine ⟨_, _, pathFlags_blank _ _ hb2, ?_, hba⟩
    simp
  | true =>
    have hb2 : IsNotBlank (defaultedConfig config h).1.Path = true := by
      rw [(defaultedConfig_fields config h).1]; exact hb
    have he := Slice.elems_fresh (defaultedConfig config h).2
      (ExecAllocatorOption.ExecPath (defaultedConfig config h).1.Path ::
        (defaultedConfig config h).1.Flags.elems (defaultedConfig config h).2)
      ((defaultedConfig config h).1.Flags.len + 1)
      (by simp [Slice.length_elems _ _ hwf1])
    refine ⟨_, _, pathFlags_nonblank_WF _ _ hb2 hwf1, ?_, ?_⟩
    · rw [he, (defaultedConfig_fields config h).1]; simp
    · rw [he, List.all_cons, hba]; rfl

/-- On well-formed flags the allocator can apply, the call runs to its end. -/
theorem RunChrome_clean {T : Type} (config : Options) (extractor : Extractor T) (h : Heap)
    (hwf : config.Flags.WF h)
    (hok : (config.Flags.elems h).all ExecAllocatorOption.applies = true) :
    ∃ flags h2,
      pathFlags (defaultedConfig config h).1 (defaultedConfig config h).2 = some (flags, h2) ∧
      RunChrome config extractor h =
        ⟨extractor (Context.Deadline (Context.Session
            (Context.ExecAllocator Context.Background (flags.elems h2)))
            (effectiveTimeout config)),
          h2,
          [ Event.acquire (Context.ExecAllocator Context.Background (flags.elems h2)),
            Event.acquire (Context.Session
              (Context.ExecAllocator Context.Background (flags.elems h2))),
            Event.acquire (Context.Deadline (Context.Session
              (Context.ExecAllocator Context.Background (flags.elems h2)))
              (effectiveTimeout config)),
            Event.invoke (Context.Deadline (Context.Session
              (Context.ExecAllocator Context.Background (flags.elems h2)))
              (effectiveTimeout config)),
            Event.release (Context.Deadline (Context.Session
              (Context.ExecAllocator Context.Background (flags.elems h2)))
              (effectiveTimeout config)),
            Event.release (Context.Session
              (Context.ExecAllocator Context.Background (flags.elems h2))),
            Event.release (Context.ExecAllocator Context.Background (flags.elems h2)) ]⟩ := by
  obtain ⟨flags, h2, hp, _, hall⟩ := final_flags config h hwf
  rw [hok] at hall
  exact ⟨flags, h2, hp, RunChrome_ok config extractor h flags h2 hp hall⟩

/-- On well-formed flags one of which the allocator cannot apply, the call panics in
the allocator. -/
theorem RunChrome_dirty {T : Type} (config : Options) (extractor : Extractor T) (h : Heap)
    (hwf : config.Flags.WF h)
    (hbad : (config.Flags.elems h).all ExecAllocatorOption.applies = false) :
    ∃ flags h2,
      pathFlags (defaultedConfig config h).1 (defaultedConfig config h).2 = some (flags, h2) ∧
      RunChrome config extractor h =
        ⟨Outcome.panic (panicReason (flags.elems h2)),
          h2,
          [Event.fail (Context.ExecAllocator Context.Background (flags.elems h2))]⟩ := by
  obtain ⟨flags, h2, hp, _, hall⟩ := final_flags config h hwf
  rw [hbad] at hall
  exact ⟨flags, h2, hp, RunChrome_panic config extractor h flags h2 hp hall⟩

/-- Every call either runs to its end, with the extractor invoked once and its outcome
the outcome of the call, or panics in the allocator with nothing invoked. -/
theorem RunChrome_cases {T : Type} (config : Options) (extractor : Extractor T) (h : Heap) :
    (∃ ctx, invocations (RunChrome config extractor h).trace = [ctx] ∧
      (RunChrome config extractor h).outcome = extractor ctx ∧
      deadlineArgs (RunChrome config extractor h).trace = [effectiveTimeout config] ∧
      failures (RunChrome config extractor h).trace = []) ∨
    (invocations (RunChrome config extractor h).trace = [] ∧
      deadlineArgs (RunChrome config extractor h).trace = [] ∧
      acquisitions (RunChrome config extractor h).trace = [] ∧
      releases (RunChrome config extractor h).trace = [] ∧
      (∃ opts, failures (RunChrome config extractor h).trace =
          [Context.ExecAllocator Context.Background opts] ∧
        opts.all ExecAllocatorOption.applies = false) ∧
      ∃ reason, (RunChrome config extractor h).outcome = Outcome.panic reason) := by
  obtain ⟨flags, fresh, hp⟩ :=
    pathFlags_total (defaultedConfig config h).1 (defaultedConfig config h).2
  cases hall : (flags.elems ((defaultedConfig config h).2 ++ fresh)).all
      ExecAllocatorOption.applies with
  | true =>
    left
    rw [RunChrome_ok config extractor h flags _ hp hall]
    exact ⟨_, rfl, rfl, rfl, rfl⟩
  | false =>
    right
    rw [RunChrome_panic config extractor h flags _ hp hall]
    exact ⟨rfl, rfl, rfl, rfl, ⟨_, rfl, hall⟩, _, rfl⟩

/-! ## Flags -/

/-- C1: the base flag sequence is the one `DefaultFlags()` returns when the caller's
`Flags` has length 0 (nil or empty) and is the caller's slice itself otherwise;
`DefaultFlags()` holds exactly the five directives NoFirstRun, NoDefaultBrowserCheck,
NoSandbox, Flag("incognito", true), Flag("disable-blink-features",
"AutomationControlled") in this order; and with empty `Flags` and a blank `Path` the
allocator is handed exactly those five. -/
theorem base_flags_default_iff_empty {T : Type} (config : Options) (extractor : Extractor T)
    (h : Heap) :
    (DefaultFlags h).1.elems (DefaultFlags h).2 =
      [ ExecAllocatorOption.NoFirstRun, ExecAllocatorOption.NoDefaultBrowserCheck,
        ExecAllocatorOption.NoSandbox,
        ExecAllocatorOption.Flag "incognito" (FlagValue.bool true),
        ExecAllocatorOption.Flag "disable-blink-features"
          (FlagValue.str "AutomationControlled") ] ∧
    (config.Flags.len = 0 →
      (defaultedConfig config h).1.Flags = (DefaultFlags h).1 ∧
      (defaultedConfig config h).2 = (DefaultFlags h).2) ∧
    (config.Flags.len ≠ 0 →
      (defaultedConfig config h).1.Flags = config.Flags ∧ (defaultedConfig config h).2 = h) ∧
    (config.Flags.len ≠ 0 → IsNotBlank config.Path = false →
      allocatorArgs (RunChrome config extractor h).trace = [config.Flags.elems h]) ∧
    (config.Flags.len = 0 → IsNotBlank config.Path = false →
      allocatorArgs (RunChrome config extractor h).trace =
        [[ ExecAllocatorOption.NoFirstRun, ExecAllocatorOption.NoDefaultBrowserCheck,
           ExecAllocatorOption.NoSandbox,
           ExecAllocatorOption.Flag "incognito" (FlagValue.bool true),
           ExecAllocatorOption.Flag "disable-blink-features"
             (FlagValue.str "AutomationControlled") ]]) := by
  have hdef : (DefaultFlags h).1.elems (DefaultFlags h).2 = defaultFlagValues := by
    simp [DefaultFlags, sliceLit, Heap.alloc, Slice.elems, getD_snoc, defaultFlagValues]
  refine ⟨hdef, ?_, ?_, ?_, ?_⟩
  · intro hlen
    rw [defaultedConfig_empty config h hlen]
    simp [DefaultFlags, sliceLit, Heap.alloc, defaultFlagValues]
  · intro hlen
    rw [defaultedConfig_nonempty config h hlen]
    exact ⟨rfl, rfl⟩
  · intro hlen hb
    have hb2 : IsNotBlank (defaultedConfig config h).1.Path = false := by
      rw [(defaultedConfig_fields config h).1]; exact hb
    rw [RunChrome_allocatorArgs config extractor h _ _ (pathFlags_blank _ _ hb2)]
    rw [defaultedConfig_nonempty config h hlen]
  · intro hlen hb
    have hb2 : IsNotBlank (defaultedConfig config h).1.Path = false := by
      rw [(defaultedConfig_fields config h).1]; exact hb
    rw [RunChrome_allocatorArgs config extractor h _ _ (pathFlags_blank _ _ hb2)]
    rw [defaultedConfig_empty config h hlen]
    simp [Slice.elems, getD_snoc, defaultFlagValues]

theorem base_flags_default_iff_empty_witness :
    allocatorArgs (RunChrome ({} : Options) extractSeven []).trace =
        [[ ExecAllocatorOption.NoFirstRun, ExecAllocatorOption.NoDefaultBrowserCheck,
           ExecAllocatorOption.NoSandbox,
           ExecAllocatorOption.Flag "incognito" (FlagValue.bool true),
           ExecAllocatorOption.Flag "disable-blink-features"
             (FlagValue.str "AutomationControlled") ]] ∧
    (defaultedConfig pathOptions callerHeap).1.Flags = callerFlags ∧
    allocatorArgs (RunChrome blankPathOptions extractSeven callerHeap).trace =
      [callerFlags.elems callerHeap] :=
  ⟨(base_flags_default_iff_empty ({} : Options) extractSeven []).2.2.2.2 rfl rfl,
   ((base_flags_default_iff_empty pathOptions extractSeven callerHeap).2.2.1
      (by decide)).1,
   (base_flags_default_iff_empty blankPathOptions extractSeven callerHeap).2.2.2.1
      (by decide) (by decide)⟩

/-- C2: with base the possibly defaulted flag sequence (which has exactly `len(base)`
elements), a non-blank `Path` makes the allocator receive `ExecPath(Path)` followed by
the elements of base in the same order, so `len(base)+1` elements with the path
directive first; a blank `Path` makes it receive exactly base. -/
theorem allocator_flags_path_first {T : Type} (config : Options) (extractor : Extractor T)
    (h : Heap) (hwf : config.Flags.WF h) :
    ((defaultedConfig config h).1.Flags.elems (defaultedConfig config h).2).length =
      (defaultedConfig config h).1.Flags.len ∧
    (IsNotBlank config.Path = true →
      allocatorArgs (RunChrome config extractor h).trace =
        [ExecAllocatorOption.ExecPath config.Path ::
          (defaultedConfig config h).1.Flags.elems (defaultedConfig config h).2]) ∧
    (IsNotBlank config.Path = false →
      allocatorArgs (RunChrome config extractor h).trace =
        [(defaultedConfig config h).1.Flags.elems (defaultedConfig config h).2]) := by
  have hwf1 := defaultedConfig_WF config h hwf
  refine ⟨Slice.length_elems _ _ hwf1, ?_, ?_⟩
  · intro hb
    have hb2 : IsNotBlank (defaultedConfig config h).1.Path = true := by
      rw [(defaultedConfig_fields config h).1]; exact hb
    rw [RunChrome_allocatorArgs config extractor h _ _ (pathFlags_nonblank_WF _ _ hb2 hwf1)]
    rw [Slice.elems_fresh _ _ _ (by simp [Slice.length_elems _ _ hwf1])]
    rw [(defaultedConfig_fields config h).1]
  · intro hb
    have hb2 : IsNotBlank (defaultedConfig config h).1.Path = false := by
      rw [(defaultedConfig_fields config h).1]; exact hb
    rw [RunChrome_allocatorArgs config extractor h _ _ (pathFlags_blank _ _ hb2)]

theorem allocator_flags_path_first_witness :
    allocatorArgs (RunChrome pathOptions extractSeven callerHeap).trace =
      [[ExecAllocatorOption.ExecPath "/usr/bin/chrome", ExecAllocatorOption.Custom 2,
        ExecAllocatorOption.Custom 3]] ∧
    allocatorArgs (RunChrome blankPathOptions extractSeven callerHeap).trace =
      [[ExecAllocatorOption.Custom 2, ExecAllocatorOption.Custom 3]] :=
  ⟨(allocator_flags_path_first pathOptions extractSeven callerHeap (by decide)).2.1
      (by decide),
   (allocator_flags_path_first blankPathOptions extractSeven callerHeap (by decide)).2.2
      (by decide)⟩

/-- C3: after `RunChrome` returns, the caller's `Flags` slice has the same length and
the same elements as before, with or without a path override and with or without
defaulting: every array that existed before the call is untouched, the heap has only
gained fresh arrays, and with a non-blank path the slice that receives the path
directive lies in an array allocated during the call. -/
theorem caller_flags_unchanged {T : Type} (config : Options) (extractor : Extractor T)
    (h : Heap) (hwf : config.Flags.WF h) :
    (∃ fresh, (RunChrome config extractor h).heap = h ++ fresh) ∧
    config.Flags.elems (RunChrome config extractor h).heap = config.Flags.elems h ∧
    (config.Flags.elems (RunChrome config extractor h).heap).length = config.Flags.len ∧
    (∀ a, a < h.length → (RunChrome config extractor h).heap.getD a [] = h.getD a []) ∧
    (IsNotBlank config.Path = true →
      ∃ flags h2 a,
        pathFlags (defaultedConfig config h).1 (defaultedConfig config h).2 = some (flags, h2) ∧
        flags.ptr = some a ∧ h.length ≤ a) := by
  obtain ⟨fresh1, hd⟩ := defaultedConfig_heap config h
  obtain ⟨flags, fresh2, hp⟩ :=
    pathFlags_total (defaultedConfig config h).1 (defaultedConfig config h).2
  have hheap : (RunChrome config extractor h).heap = h ++ (fresh1 ++ fresh2) := by
    rw [RunChrome_heap config extractor h _ _ hp, hd, List.append_assoc]
  have helems : config.Flags.elems (RunChrome config extractor h).heap = config.Flags.elems h := by
    rw [hheap]; exact Slice.elems_append _ _ _ hwf
  refine ⟨⟨_, hheap⟩, helems, ?_, ?_, ?_⟩
  · rw [helems]; exact Slice.length_elems _ _ hwf
  · intro a ha
    rw [hheap]; exact getD_append_lt _ _ _ _ ha
  · intro hb
    have hb2 : IsNotBlank (defaultedConfig config h).1.Path = true := by
      rw [(defaultedConfig_fields config h).1]; exact hb
    refine ⟨_, _, (defaultedConfig config h).2.length, pathFlags_nonblank _ _ hb2, rfl, ?_⟩
    rw [hd]; simp

theorem caller_flags_unchanged_witness :
    callerFlags.elems (RunChrome pathOptions extractSeven callerHeap).heap =
      [ExecAllocatorOption.Custom 2, ExecAllocatorOption.Custom 3] ∧
    (RunChrome pathOptions extractSeven callerHeap).heap.getD 0 [] =
      [ExecAllocatorOption.Custom 1, ExecAllocatorOption.Custom 2,
        ExecAllocatorOption.Custom 3] :=
  ⟨(caller_flags_unchanged pathOptions extractSeven callerHeap (by decide)).2.1,
   (caller_flags_unchanged pathOptions extractSeven callerHeap (by decide)).2.2.2.1 0
      (by decide)⟩

/-! ## Timeout -/

/-- C4: every duration `RunChrome` gives to the deadline wrapper is `DefaultTimeout`,
60 seconds, when `Timeout == 0`, and is `Timeout` itself for every non-zero `Timeout`,
negative ones included; and on well-formed flags that the allocator can apply, the
deadline wrapper is given exactly that one duration. -/
theorem deadline_timeout_default_or_given {T : Type} (config : Options)
    (extractor : Extractor T) (h : Heap) :
    DefaultTimeout = 60 * 1000000000 ∧
    (config.Timeout = 0 →
      ∀ d ∈ deadlineArgs (RunChrome config extractor h).trace, d = DefaultTimeout) ∧
    (config.Timeout ≠ 0 →
      ∀ d ∈ deadlineArgs (RunChrome config extractor h).trace, d = config.Timeout) ∧
    (config.Flags.WF h →
      (config.Flags.elems h).all ExecAllocatorOption.applies = true →
      (config.Timeout = 0 →
        deadlineArgs (RunChrome config extractor h).trace = [DefaultTimeout]) ∧
      (config.Timeout ≠ 0 →
        deadlineArgs (RunChrome config extractor h).trace = [config.Timeout])) := by
  have hsub : ∀ d ∈ deadlineArgs (RunChrome config extractor h).trace,
      d = effectiveTimeout config := by
    intro d hd
    rcases RunChrome_cases config extractor h with ⟨_, _, _, hda, _⟩ | ⟨_, hda, _⟩
    · rw [hda] at hd; exact List.mem_singleton.mp hd
    · rw [hda] at hd; exact absurd hd (List.not_mem_nil d)
  refine ⟨rfl, ?_, ?_, ?_⟩
  · intro h0 d hd
    rw [hsub d hd]; simp [effectiveTimeout, h0]
  · intro h0 d hd
    rw [hsub d hd]; simp [effectiveTimeout, h0]
  · intro hwf hok
    obtain ⟨flags, h2, _, hrun⟩ := RunChrome_clean config extractor h hwf hok
    rw [hrun]
    constructor
    · intro h0; simp [deadlineArgs, effectiveTimeout, h0]
    · intro h0; simp [deadlineArgs, effectiveTimeout, h0]

theorem deadline_timeout_default_or_given_witness :
    deadlineArgs (RunChrome blankPathOptions extractSeven callerHeap).trace =
      [DefaultTimeout] ∧
    deadlineArgs (RunChrome expiredOptions extractSeven []).trace = [-1] ∧
    (∀ d ∈ deadlineArgs (RunChrome nilOptions extractSeven nilHeap).trace,
      d = DefaultTimeout) :=
  ⟨((deadline_timeout_default_or_given blankPathOptions extractSeven callerHeap).2.2.2
      (by decide) (by decide)).1 rfl,
   ((deadline_timeout_default_or_given expiredOptions extractSeven []).2.2.2
      (by decide) (by decide)).2 (by decide),
   (deadline_timeout_default_or_given nilOptions extractSeven nilHeap).2.1 rfl⟩

/-- C5: at the zero-valued `Options` the timeout applied is 60 seconds, not the 120
seconds the comment on `Options.Timeout` documents. -/
theorem unset_timeout_is_sixty_not_120_seconds :
    deadlineArgs (RunChrome ({} : Options) extractSeven []).trace = [60 * Second] ∧
    deadlineArgs (RunChrome ({} : Options) extractSeven []).trace ≠ [120 * Second] := by
  decide

/-! ## Result -/

/-- C6, as stated, fails: with `Flags` holding a nil option the allocator panics, so an
extractor that returns (7, nil) wherever it is called does not make `RunChrome` return
(7, nil). -/
theorem extractor_result_counterexample :
    ¬ (∀ (config : Options) (extractor : Extractor Nat) (h : Heap) (v : Nat)
        (e : Option GoError),
        config.Flags.WF h → (∀ ctx, extractor ctx = Outcome.ret v e) →
        (RunChrome config extractor h).outcome = Outcome.ret v e) := by
  intro hall
  have hbad := hall nilOptions extractSeven nilHeap 7 none (by decide) (fun _ => rfl)
  revert hbad
  decide

/-- C6, amended: for every `Options` value whose flags the allocator can apply (none
is nil or panics) and every extractor that returns the pair (v, e) where it is invoked,
`RunChrome` returns exactly (v, e), value and error unchanged; and for any `Options`
value, whenever the extractor is invoked and returns (v, e), so does `RunChrome`. -/
theorem extractor_result_propagated {T : Type} (config : Options) (extractor : Extractor T)
    (h : Heap) (v : T) (e : Option GoError) :
    (config.Flags.WF h →
      (config.Flags.elems h).all ExecAllocatorOption.applies = true →
      (∀ ctx ∈ invocations (RunChrome config extractor h).trace,
        extractor ctx = Outcome.ret v e) →
      (RunChrome config extractor h).outcome = Outcome.ret v e) ∧
    ((∃ ctx ∈ invocations (RunChrome config extractor h).trace,
        extractor ctx = Outcome.ret v e) →
      (RunChrome config extractor h).outcome = Outcome.ret v e) := by
  constructor
  · intro hwf hok hret
    obtain ⟨flags, h2, _, hrun⟩ := RunChrome_clean config extractor h hwf hok
    rw [hrun] at hret ⊢
    exact hret _ (List.mem_singleton.mpr rfl)
  · rintro ⟨ctx, hmem, hret⟩
    rcases RunChrome_cases config extractor h with ⟨c, hinv, hout, _⟩ | ⟨hinv, _⟩
    · rw [hinv] at hmem
      rw [hout, ← List.mem_singleton.mp hmem]
      exact hret
    · rw [hinv] at hmem
      exact absurd hmem (List.not_mem_nil ctx)

theorem extractor_result_propagated_witness :
    (RunChrome pathOptions extractSeven callerHeap).outcome = Outcome.ret 7 none ∧
    (RunChrome blankPathOptions extractSeven callerHeap).outcome = Outcome.ret 7 none :=
  ⟨(extractor_result_propagated pathOptions extractSeven callerHeap 7 none).1
      (by decide) (by decide) (fun _ _ => rfl),
   (extractor_result_propagated blankPathOptions extractSeven callerHeap 7 none).2
      ⟨Context.Deadline (Context.Session (Context.ExecAllocator Context.Background
          [ExecAllocatorOption.Custom 2, ExecAllocatorOption.Custom 3])) DefaultTimeout,
        by decide, rfl⟩⟩

/-- C7, as stated, fails: an extractor that returns (5, err) makes `RunChrome` return
(5, err), not the zero value with err. -/
theorem error_result_zero_value_counterexample :
    ¬ (∀ (config : Options) (extractor : Extractor Nat) (h : Heap) (v : Nat) (err : GoError),
        (∀ ctx ∈ invocations (RunChrome config extractor h).trace,
          extractor ctx = Outcome.ret v (some err)) →
        (RunChrome config extractor h).outcome = Outcome.ret default (some err)) := by
  intro hall
  have hbad := hall ({} : Options) extractFiveFailing [] 5 "navigation failed" (fun _ _ => rfl)
  revert hbad
  decide

/-- C7, amended: for every `Options` value whose flags the allocator can apply (none
is nil or panics), when the extractor returns (v, err) with err non-nil, `RunChrome`
returns (v, err) with the extractor's value unchanged; the value is the zero value of
T exactly when the extractor returned the zero value. -/
theorem error_result_value_unchanged {T : Type} [Inhabited T] (config : Options)
    (extractor : Extractor T) (h : Heap) (v : T) (err : GoError)
    (hwf : config.Flags.WF h)
    (hok : (config.Flags.elems h).all ExecAllocatorOption.applies = true)
    (hret : ∀ ctx ∈ invocations (RunChrome config extractor h).trace,
      extractor ctx = Outcome.ret v (some err)) :
    (RunChrome config extractor h).outcome = Outcome.ret v (some err) ∧
    ((RunChrome config extractor h).outcome = Outcome.ret default (some err) ↔ v = default) := by
  have hout : (RunChrome config extractor h).outcome = Outcome.ret v (some err) := by
    obtain ⟨flags, h2, _, hrun⟩ := RunChrome_clean config extractor h hwf hok
    rw [hrun] at hret ⊢
    exact hret _ (List.mem_singleton.mpr rfl)
  rw [hout]
  refine ⟨rfl, ?_, ?_⟩
  · intro heq
    injection heq
  · intro heq
    rw [heq]

theorem error_result_value_unchanged_witness :
    (RunChrome ({} : Options) extractFiveFailing []).outcome =
      Outcome.ret 5 (some "navigation failed") :=
  (error_result_value_unchanged ({} : Options) extractFiveFailing [] 5 "navigation failed"
    (by decide) (by decide) (fun _ _ => rfl)).1

/-! ## Acquisition, invocation and release -/

/-- C8, as stated, fails: with `Flags` holding a nil option the acquisition of the
allocator fails, and `RunChrome` does not return a zero value with an error: it
panics. -/
theorem acquisition_failure_counterexample :
    ¬ (∀ (config : Options) (extractor : Extractor Nat) (h : Heap),
        config.Flags.WF h →
        failures (RunChrome config extractor h).trace ≠ [] →
        (∃ err, (RunChrome config extractor h).outcome = Outcome.ret default (some err)) ∧
        invocations (RunChrome config extractor h).trace = []) := by
  intro hall
  obtain ⟨⟨err, herr⟩, _⟩ := hall nilOptions extractSeven nilHeap (by decide) (by decide)
  have hout : (RunChrome nilOptions extractSeven nilHeap).outcome =
      Outcome.panic "runtime error: invalid memory address or nil pointer dereference" := by
    decide
  rw [hout] at herr
  cases herr

/-- C8, amended: the only acquisition that can fail is the allocator's, by panicking
on an option it cannot apply (a nil option).  When it fails, `RunChrome` does not
return: it panics, with nothing acquired, nothing released and the extractor never
invoked. -/
theorem allocator_failure_panics {T : Type} (config : Options) (extractor : Extractor T)
    (h : Heap) (hfail : failures (RunChrome config extractor h).trace ≠ []) :
    (∃ opts, failures (RunChrome config extractor h).trace =
        [Context.ExecAllocator Context.Background opts] ∧
      allocatorArgs (RunChrome config extractor h).trace = [opts] ∧
      opts.all ExecAllocatorOption.applies = false) ∧
    (∃ reason, (RunChrome config extractor h).outcome = Outcome.panic reason) ∧
    invocations (RunChrome config extractor h).trace = [] ∧
    acquisitions (RunChrome config extractor h).trace = [] ∧
    releases (RunChrome config extractor h).trace = [] := by
  obtain ⟨flags, fresh, hp⟩ :=
    pathFlags_total (defaultedConfig config h).1 (defaultedConfig config h).2
  cases hall : (flags.elems ((defaultedConfig config h).2 ++ fresh)).all
      ExecAllocatorOption.applies with
  | true =>
    rw [RunChrome_ok config extractor h flags _ hp hall] at hfail
    exact absurd rfl hfail
  | false =>
    rw [RunChrome_panic config extractor h flags _ hp hall]
    exact ⟨⟨_, rfl, rfl, hall⟩, ⟨_, rfl⟩, rfl, rfl, rfl⟩

theorem allocator_failure_panics_witness :
    (∃ reason, (RunChrome nilOptions extractSeven nilHeap).outcome = Outcome.panic reason) ∧
    invocations (RunChrome nilOptions extractSeven nilHeap).trace = [] :=
  ⟨(allocator_failure_panics nilOptions extractSeven nilHeap (by decide)).2.1,
   (allocator_failure_panics nilOptions extractSeven nilHeap (by decide)).2.2.1⟩

/-- C9, as stated, fails: with `Flags` holding a nil option the allocator panics, and
the call acquires and releases nothing. -/
theorem release_order_counterexample :
    ¬ (∀ (config : Options) (extractor : Extractor Nat) (h : Heap),
        config.Flags.WF h →
        ∃ opts d,
          (RunChrome config extractor h).trace =
            [ Event.acquire (Context.ExecAllocator Context.Background opts),
              Event.acquire (Context.Session (Context.ExecAllocator Context.Background opts)),
              Event.acquire (Context.Deadline
                (Context.Session (Context.ExecAllocator Context.Background opts)) d),
              Event.invoke (Context.Deadline
                (Context.Session (Context.ExecAllocator Context.Background opts)) d),
              Event.release (Context.Deadline
                (Context.Session (Context.ExecAllocator Context.Background opts)) d),
              Event.release (Context.Session (Context.ExecAllocator Context.Background opts)),
              Event.release (Context.ExecAllocator Context.Background opts) ]) := by
  intro hall
  obtain ⟨opts, d, heq⟩ := hall nilOptions extractSeven nilHeap (by decide)
  have hlen : (RunChrome nilOptions extractSeven nilHeap).trace.length = 1 := by decide
  rw [heq] at hlen
  simp at hlen

/-- C9, amended: for every `Options` value whose flags the allocator can apply (none
is nil or panics) and whatever the extractor does, the whole trace of a call is:
acquire the allocator, acquire the session derived from it, acquire the deadline
wrapper derived from the session, invoke the extractor, then release the deadline
wrapper, the session and the allocator, in this order and each exactly once. -/
theorem resources_released_in_reverse_order {T : Type} (config : Options)
    (extractor : Extractor T) (h : Heap) (hwf : config.Flags.WF h)
    (hok : (config.Flags.elems h).all ExecAllocatorOption.applies = true) :
    ∃ opts d,
      (RunChrome config extractor h).trace =
        [ Event.acquire (Context.ExecAllocator Context.Background opts),
          Event.acquire (Context.Session (Context.ExecAllocator Context.Background opts)),
          Event.acquire (Context.Deadline
            (Context.Session (Context.ExecAllocator Context.Background opts)) d),
          Event.invoke (Context.Deadline
            (Context.Session (Context.ExecAllocator Context.Background opts)) d),
          Event.release (Context.Deadline
            (Context.Session (Context.ExecAllocator Context.Background opts)) d),
          Event.release (Context.Session (Context.ExecAllocator Context.Background opts)),
          Event.release (Context.ExecAllocator Context.Background opts) ] := by
  obtain ⟨flags, h2, _, hrun⟩ := RunChrome_clean config extractor h hwf hok
  rw [hrun]
  exact ⟨_, _, rfl⟩

theorem resources_released_in_reverse_order_witness :
    ∃ opts d,
      (RunChrome pathOptions extractFiveFailing callerHeap).trace =
        [ Event.acquire (Context.ExecAllocator Context.Background opts),
          Event.acquire (Context.Session (Context.ExecAllocator Context.Background opts)),
          Event.acquire (Context.Deadline
            (Context.Session (Context.ExecAllocator Context.Background opts)) d),
          Event.invoke (Context.Deadline
            (Context.Session (Context.ExecAllocator Context.Background opts)) d),
          Event.release (Context.Deadline
            (Context.Session (Context.ExecAllocator Context.Background opts)) d),
          Event.release (Context.Session (Context.ExecAllocator Context.Background opts)),
          Event.release (Context.ExecAllocator Context.Background opts) ] :=
  resources_released_in_reverse_order pathOptions extractFiveFailing callerHeap
    (by decide) (by decide)

/-- C10, as stated, fails: with `Flags` holding a nil option the allocator panics and
the extractor is invoked zero times. -/
theorem extractor_invoked_once_counterexample :
    ¬ (∀ (config : Options) (extractor : Extractor Nat) (h : Heap),
        config.Flags.WF h →
        (invocations (RunChrome config extractor h).trace).length = 1) := by
  intro hall
  have hbad := hall nilOptions extractSeven nilHeap (by decide)
  revert hbad
  decide

/-- C10, amended: for every `Options` value whose flags the allocator can apply (none
is nil or panics), one call invokes the extractor exactly once, with the
deadline-bound context (for the effective timeout) derived from the session context
derived from the allocator context that was built from the final flag sequence; when
the allocator cannot apply one of the flags the extractor is not invoked. -/
theorem extractor_invoked_once_with_deadline_context {T : Type} (config : Options)
    (extractor : Extractor T) (h : Heap) (hwf : config.Flags.WF h) :
    ((config.Flags.elems h).all ExecAllocatorOption.applies = true →
      ∃ flags h2,
        pathFlags (defaultedConfig config h).1 (defaultedConfig config h).2 = some (flags, h2) ∧
        allocatorArgs (RunChrome config extractor h).trace = [flags.elems h2] ∧
        (invocations (RunChrome config extractor h).trace).length = 1 ∧
        invocations (RunChrome config extractor h).trace =
          [Context.Deadline
            (Context.Session (Context.ExecAllocator Context.Background (flags.elems h2)))
            (effectiveTimeout config)]) ∧
    ((config.Flags.elems h).all ExecAllocatorOption.applies = false →
      invocations (RunChrome config extractor h).trace = []) := by
  constructor
  · intro hok
    obtain ⟨flags, h2, hp, hrun⟩ := RunChrome_clean config extractor h hwf hok
    refine ⟨flags, h2, hp, RunChrome_allocatorArgs config extractor h flags h2 hp, ?_⟩
    rw [hrun]
    exact ⟨rfl, rfl⟩
  · intro hbad
    obtain ⟨flags, h2, _, hrun⟩ := RunChrome_dirty config extractor h hwf hbad
    rw [hrun]
    rfl

theorem extractor_invoked_once_with_deadline_context_witness :
    (invocations (RunChrome pathOptions extractSeven callerHeap).trace).length = 1 ∧
    invocations (RunChrome nilOptions extractSeven nilHeap).trace = [] :=
  ⟨by
      obtain ⟨_, _, _, _, hlen, _⟩ :=
        (extractor_invoked_once_with_deadline_context pathOptions extractSeven callerHeap
          (by decide)).1 (by decide)
      exact hlen,
   (extractor_invoked_once_with_deadline_context nilOptions extractSeven nilHeap
      (by decide)).2 (by decide)⟩

end chromex
